import Mathlib

/-!
Verification of `src/api_misery_index.py` (class `APIMiseryIndex`).

The Python program logs API responses and errors and computes a bounded
"misery score".  We embed the JSON-like payloads as an inductive `Value`
(per the design notes: null / bool / number / string / ordered list /
ordered map with string keys), plus a `nonSerializable` constructor that
models an arbitrary Python object `json.dumps` rejects with a `TypeError`.

`dumps sk v` models `json.dumps(v)` (with `sort_keys=True` when
`sk = true`): default separators are `", "` and `": "`, strings are
escaped exactly as Python's `ensure_ascii=True` encoder does, and map
keys are sorted with a stable sort when `sk` holds.  Serialization of a
value containing a non-serializable object fails (`Except.error ()`),
modeling the raised `TypeError`.

All misery arithmetic in the source happens on exact small integers
(sums of 40, 10·k clamped at 30, and 2·k clamped at 30, totalling at
most 100), on which Python float arithmetic is exact, so the score is
embedded as a `Nat`.
-/

/-- JSON-like payload values.  `nonSerializable` stands for any Python
object that `json.dumps` cannot serialize. -/
inductive Value where
  | null : Value
  | bool : Bool → Value
  | int : Int → Value
  | str : String → Value
  | arr : List Value → Value
  | obj : List (String × Value) → Value
  | nonSerializable : Value

/-- Hexadecimal digit char (lowercase), as produced by Python's
`\uXXXX` escapes. -/
def hexDigit (n : Nat) : Char :=
  if n < 10 then Char.ofNat (48 + n) else Char.ofNat (87 + n)

/-- Four lowercase hex digits of `n`, as in Python's `\u%04x`. -/
def hex4 (n : Nat) : String :=
  String.mk [hexDigit (n / 4096 % 16), hexDigit (n / 256 % 16),
             hexDigit (n / 16 % 16), hexDigit (n % 16)]

/-- Escape of one character inside a JSON string literal, following
Python's `json` encoder with the default `ensure_ascii=True`: quote and
backslash are escaped, the five short escapes are used, every character
outside printable ASCII `0x20`-`0x7e` becomes `\uXXXX` (with a surrogate
pair above `0xffff`). -/
def escapeChar (c : Char) : String :=
  if c = '"' then "\\\""
  else if c = '\\' then "\\\\"
  else if c = '\x08' then "\\b"
  else if c = '\x09' then "\\t"
  else if c = '\x0a' then "\\n"
  else if c = '\x0c' then "\\f"
  else if c = '\x0d' then "\\r"
  else if 0x20 ≤ c.toNat && c.toNat ≤ 0x7e then String.singleton c
  else if c.toNat < 0x10000 then "\\u" ++ hex4 c.toNat
  else
    "\\u" ++ hex4 (0xd800 + (c.toNat - 0x10000) / 0x400) ++
    "\\u" ++ hex4 (0xdc00 + (c.toNat - 0x10000) % 0x400)

/-- JSON string literal for `s`, as `json.dumps` renders a `str`. -/
def quoteStr (s : String) : String :=
  "\"" ++ String.join (s.data.map escapeChar) ++ "\""

/-- Lexicographic "less or equal" on character lists compared by code
point: exactly Python's `str` comparison. -/
def charListLeb : List Char → List Char → Bool
  | [], _ => true
  | _ :: _, [] => false
  | c :: cs, d :: ds =>
      if c.toNat < d.toNat then true
      else if d.toNat < c.toNat then false
      else charListLeb cs ds

theorem charListLeb_total : ∀ a b : List Char, charListLeb a b = true ∨ charListLeb b a = true
  | [], _ => Or.inl rfl
  | _ :: _, [] => Or.inr rfl
  | c :: cs, d :: ds => by
      by_cases h1 : c.toNat < d.toNat
      · left; simp [charListLeb, h1]
      · by_cases h2 : d.toNat < c.toNat
        · right; simp [charListLeb, h2]
        · have := charListLeb_total cs ds
          cases this with
          | inl h => left; simp [charListLeb, h1, h2, h]
          | inr h => right; simp [charListLeb, h1, h2, h]

theorem charListLeb_trans : ∀ a b c : List Char,
    charListLeb a b = true → charListLeb b c = true → charListLeb a c = true
  | [], _, _, _, _ => rfl
  | x :: _, [], _, hab, _ => by simp [charListLeb] at hab
  | _ :: _, _ :: _, [], _, hbc => by simp [charListLeb] at hbc
  | x :: xs, y :: ys, z :: zs, hab, hbc => by
      simp only [charListLeb] at hab hbc ⊢
      by_cases h1 : x.toNat < y.toNat
      · by_cases h2 : y.toNat < z.toNat
        · simp [show x.toNat < z.toNat from by omega]
        · by_cases h3 : z.toNat < y.toNat
          · simp [h2, h3] at hbc
          · simp [show x.toNat < z.toNat from by omega]
      · by_cases h4 : y.toNat < x.toNat
        · simp [h1, h4] at hab
        · simp only [h1, h4] at hab
          simp only [ite_false, if_neg, not_false_iff] at hab
          by_cases h2 : y.toNat < z.toNat
          · simp [show x.toNat < z.toNat from by omega]
          · by_cases h3 : z.toNat < y.toNat
            · simp [h2, h3] at hbc
            · simp only [h2, h3] at hbc
              simp only [ite_false, if_neg, not_false_iff] at hbc
              have h5 : ¬ x.toNat < z.toNat := by omega
              have h6 : ¬ z.toNat < x.toNat := by omega
              simp only [h5, h6, ite_false, if_neg, not_false_iff]
              exact charListLeb_trans xs ys zs hab hbc

theorem charListLeb_antisymm : ∀ a b : List Char,
    charListLeb a b = true → charListLeb b a = true → a = b
  | [], [], _, _ => rfl
  | [], _ :: _, _, hba => by simp [charListLeb] at hba
  | _ :: _, [], hab, _ => by simp [charListLeb] at hab
  | x :: xs, y :: ys, hab, hba => by
      simp only [charListLeb] at hab hba
      by_cases hxy : x.toNat < y.toNat
      · simp only [hxy, if_pos] at hba
        have : ¬ y.toNat < x.toNat := by omega
        simp [hxy, this] at hba
      · by_cases hyx : y.toNat < x.toNat
        · simp [hxy, hyx] at hab
        · have hxy' : x.toNat = y.toNat := by omega
          have hx : x = y := Char.ext (UInt32.ext hxy')
          simp only [hxy, hyx] at hab hba
          simp only [ite_false, if_neg, not_false_iff] at hab hba
          rw [hx, charListLeb_antisymm xs ys hab hba]

/-- Key order used by `sort_keys=True`: compare entries by their key
(Python compares `str` by code points; keys in a `dict` are unique, so
comparing only the keys agrees with Python's tuple comparison). -/
def pairKeyLe (p q : String × String) : Prop := charListLeb p.1.data q.1.data = true

instance : DecidableRel pairKeyLe := fun p q =>
  inferInstanceAs (Decidable (charListLeb p.1.data q.1.data = true))

instance : IsTotal (String × String) pairKeyLe :=
  ⟨fun p q => charListLeb_total p.1.data q.1.data⟩

instance : IsTrans (String × String) pairKeyLe :=
  ⟨fun _ _ _ h1 h2 => charListLeb_trans _ _ _ h1 h2⟩

/-- Stable sort of `(key, rendered value)` entries by key, modeling
`sorted(dct.items())` inside `json.dumps(..., sort_keys=True)`.  Sorting
the already-rendered entries by key gives the same string as Python's
sort-then-render, because each entry renders independently of its
position. -/
def sortPairs (l : List (String × String)) : List (String × String) :=
  List.insertionSort pairKeyLe l

/-- Rendering of one object entry: `"key": value` with the default key
separator `": "`. -/
def entryStr (p : String × String) : String :=
  quoteStr p.1 ++ ": " ++ p.2

mutual

/-- Model of `json.dumps(v, sort_keys=sk)` with default separators
(`", "` between items, `": "` after keys).  Fails (`TypeError` in
Python) exactly on values containing `nonSerializable`. -/
def dumps (sk : Bool) : Value → Except Unit String
  | .null => .ok "null"
  | .bool true => .ok "true"
  | .bool false => .ok "false"
  | .int n => .ok (toString n)
  | .str s => .ok (quoteStr s)
  | .arr xs => do
      let parts ← dumpsList sk xs
      .ok ("\x5b" ++ String.intercalate ", " parts ++ "\x5d")
  | .obj kvs => do
      let parts ← dumpsPairs sk kvs
      let ordered := if sk then sortPairs parts else parts
      .ok ("\x7b" ++ String.intercalate ", " (ordered.map entryStr) ++ "\x7d")
  | .nonSerializable => .error ()

/-- Serialization of the elements of a JSON array, in order. -/
def dumpsList (sk : Bool) : List Value → Except Unit (List String)
  | [] => .ok []
  | v :: vs => do
      let s ← dumps sk v
      let ss ← dumpsList sk vs
      .ok (s :: ss)

/-- Serialization of the entries of a JSON object: each value is
rendered and kept with its key. -/
def dumpsPairs (sk : Bool) : List (String × Value) → Except Unit (List (String × String))
  | [] => .ok []
  | kv :: rest => do
      let s ← dumps sk kv.2
      let ss ← dumpsPairs sk rest
      .ok ((kv.1, s) :: ss)

end

mutual

/-- Whether `json.dumps` accepts the value (no `nonSerializable` inside). -/
def serializable : Value → Bool
  | .arr xs => serializableL xs
  | .obj kvs => serializableP kvs
  | .nonSerializable => false
  | _ => true

/-- All elements of the list are serializable. -/
def serializableL : List Value → Bool
  | [] => true
  | v :: vs => serializable v && serializableL vs

/-- All values of the entry list are serializable. -/
def serializableP : List (String × Value) → Bool
  | [] => true
  | kv :: rest => serializable kv.2 && serializableP rest

end

/-- Number of occurrences of the character `c` in `s`, modeling Python's
`str.count` for a single-character argument. -/
def strCount (s : String) (c : Char) : Nat :=
  s.data.count c

/-- A logged response: `{'timestamp': datetime.now().isoformat(),
'data': response_data}`.  The timestamp string is an arbitrary input of
the model (the wall clock). -/
structure ResponseRecord where
  timestamp : String
  data : Value

/-- A logged error: `{'timestamp': ..., 'message': error_msg}`.  Python
does not enforce the `str` annotation, so the message is modeled as an
arbitrary value. -/
structure ErrorRecord where
  timestamp : String
  message : Value

/-- State of one `APIMiseryIndex` tracker: the label and the two
append-only sequences. -/
structure APIMiseryIndex where
  api_name : String
  responses : List ResponseRecord
  errors : List ErrorRecord

/-- Constructor `APIMiseryIndex(api_name="Unknown API")`: empty sequences. -/
def APIMiseryIndex.mkTracker (api_name : String := "Unknown API") : APIMiseryIndex :=
  { api_name := api_name, responses := [], errors := [] }

/-- Method `log_response`: appends one record with the current timestamp
(`now`, an input of the model) and the given data.  Total: it raises
nothing for any payload. -/
def log_response (t : APIMiseryIndex) (now : String) (response_data : Value) : APIMiseryIndex :=
  { t with responses := t.responses ++ [⟨now, response_data⟩] }

/-- Method `log_error`: appends one record with the current timestamp
and the given message.  Total: it raises nothing for any message. -/
def log_error (t : APIMiseryIndex) (now : String) (error_msg : Value) : APIMiseryIndex :=
  { t with errors := t.errors ++ [⟨now, error_msg⟩] }

/-- Block 1 of `calculate_misery`: if more than one response exists,
canonically serialize the last two payloads (`self.responses[-2:]`,
`sort_keys=True`) and add 40 when the two strings differ. -/
def inconsistencyPenalty (rs : List ResponseRecord) : Except Unit Nat :=
  if rs.length > 1 then do
    let s0 ← dumps true ((rs.drop (rs.length - 2)).headD ⟨"", .null⟩).data
    let s1 ← dumps true ((rs.drop (rs.length - 2)).getLastD ⟨"", .null⟩).data
    .ok (if s0 ≠ s1 then 40 else 0)
  else .ok 0

/-- Block 2 of `calculate_misery`: `min(30, len(self.errors) * 10)`. -/
def errorPenalty (errors : List ErrorRecord) : Nat :=
  min 30 (errors.length * 10)

/-- Block 3 of `calculate_misery`: serialize the most recent payload
(`self.responses[-1]`, no key sorting), count `\x7b` and `\x5b`
characters in the string, and add `min(30, nesting * 2)`. -/
def structuralPenalty (rs : List ResponseRecord) : Except Unit Nat :=
  match rs.getLast? with
  | none => .ok 0
  | some r => do
      let sample ← dumps false r.data
      let nesting := strCount sample '\x7b' + strCount sample '\x5b'
      .ok (min 30 (nesting * 2))

/-- Method `calculate_misery`: 0 with no responses, otherwise the three
penalty blocks are accumulated and the total clamped to 100.
`Except.error ()` models the `TypeError` propagating out of
`json.dumps`. -/
def calculate_misery (t : APIMiseryIndex) : Except Unit Nat :=
  if t.responses.isEmpty then .ok 0
  else do
    let inc ← inconsistencyPenalty t.responses
    let errp := errorPenalty t.errors
    let st ← structuralPenalty t.responses
    .ok (min 100 (inc + errp + st))

/-- Diagnosis template for `score < 20`. -/
def msgStable : String := ": Suspiciously stable. Check if it\x27s actually running."

/-- Diagnosis template for `20 <= score < 50`. -/
def msgMild : String := ": Mild annoyance. You\x27ll only cry a little."

/-- Diagnosis template for `50 <= score < 80`. -/
def msgSuffering : String := ": Significant suffering. Time for a strong drink."

/-- Diagnosis template for `score >= 80`. -/
def msgCritical : String := ": CRITICAL. Abandon all hope ye who integrate here."

/-- Method `get_diagnosis`: maps the score to one of four messages,
interpolating the label. -/
def get_diagnosis (t : APIMiseryIndex) : Except Unit String := do
  let score ← calculate_misery t
  if score < 20 then
    .ok (t.api_name ++ msgStable)
  else if score < 50 then
    .ok (t.api_name ++ msgMild)
  else if score < 80 then
    .ok (t.api_name ++ msgSuffering)
  else
    .ok (t.api_name ++ msgCritical)

/-! ## Helper lemmas about `Except` -/

/-- Whether an `Except` computation succeeded. -/
def isOkE {α : Type} : Except Unit α → Bool
  | .ok _ => true
  | .error _ => false

/-- Value of a successful serialization (placeholder on failure). -/
def getOk : Except Unit String → String
  | .ok s => s
  | .error _ => ""

theorem bindE_ok {α β : Type} (a : α) (f : α → Except Unit β) :
    (Except.ok a >>= f) = f a := rfl

theorem bindE_err {α β : Type} (e : Unit) (f : α → Except Unit β) :
    ((Except.error e : Except Unit α) >>= f) = Except.error e := rfl

theorem isOkE_bind_pure {α β : Type} (e : Except Unit α) (f : α → β) :
    isOkE (e >>= fun a => Except.ok (f a)) = isOkE e := by
  cases e <;> rfl

/-! ## Unfolding equations for `dumps` -/

theorem dumps_arr (sk : Bool) (xs : List Value) :
    dumps sk (.arr xs) =
      dumpsList sk xs >>= fun parts =>
        Except.ok ("\x5b" ++ String.intercalate ", " parts ++ "\x5d") := by
  simp [dumps]

theorem dumps_obj (sk : Bool) (kvs : List (String × Value)) :
    dumps sk (.obj kvs) =
      dumpsPairs sk kvs >>= fun parts =>
        Except.ok ("\x7b" ++
          String.intercalate ", " ((if sk then sortPairs parts else parts).map entryStr) ++
          "\x7d") := by
  simp [dumps]

theorem dumpsList_cons (sk : Bool) (v : Value) (vs : List Value) :
    dumpsList sk (v :: vs) =
      dumps sk v >>= fun s => dumpsList sk vs >>= fun ss => Except.ok (s :: ss) := by
  simp [dumpsList]

theorem dumpsPairs_cons (sk : Bool) (kv : String × Value) (rest : List (String × Value)) :
    dumpsPairs sk (kv :: rest) =
      dumps sk kv.2 >>= fun s =>
        dumpsPairs sk rest >>= fun ss => Except.ok ((kv.1, s) :: ss) := by
  simp [dumpsPairs]

/-! ## Serializability characterizes success of `dumps` -/

mutual

theorem dumps_isOk (sk : Bool) : (v : Value) → isOkE (dumps sk v) = serializable v
  | .null => rfl
  | .bool true => rfl
  | .bool false => rfl
  | .int _ => rfl
  | .str _ => rfl
  | .arr xs => by
      rw [dumps_arr, isOkE_bind_pure, dumpsList_isOk sk xs]
      simp [serializable]
  | .obj kvs => by
      rw [dumps_obj, isOkE_bind_pure, dumpsPairs_isOk sk kvs]
      simp [serializable]
  | .nonSerializable => rfl

theorem dumpsList_isOk (sk : Bool) : (vs : List Value) →
    isOkE (dumpsList sk vs) = serializableL vs
  | [] => rfl
  | v :: vs => by
      rw [dumpsList_cons]
      cases hv : dumps sk v with
      | error e =>
          have := dumps_isOk sk v
          rw [hv] at this
          simp [serializableL, bindE_err, ← this, isOkE]
      | ok s =>
          have := dumps_isOk sk v
          rw [hv] at this
          rw [bindE_ok, isOkE_bind_pure, dumpsList_isOk sk vs]
          simp [serializableL, ← this, isOkE]

theorem dumpsPairs_isOk (sk : Bool) : (kvs : List (String × Value)) →
    isOkE (dumpsPairs sk kvs) = serializableP kvs
  | [] => rfl
  | kv :: rest => by
      rw [dumpsPairs_cons]
      cases hv : dumps sk kv.2 with
      | error e =>
          have := dumps_isOk sk kv.2
          rw [hv] at this
          simp [serializableP, bindE_err, ← this, isOkE]
      | ok s =>
          have := dumps_isOk sk kv.2
          rw [hv] at this
          rw [bindE_ok, isOkE_bind_pure, dumpsPairs_isOk sk rest]
          simp [serializableP, ← this, isOkE]

end

/-- A serializable value serializes successfully. -/
theorem dumps_ok_of_serializable {sk : Bool} {v : Value} (h : serializable v = true) :
    dumps sk v = .ok (getOk (dumps sk v)) := by
  have := dumps_isOk sk v
  rw [h] at this
  cases hv : dumps sk v with
  | ok s => rfl
  | error e => rw [hv] at this; simp [isOkE] at this

/-- A non-serializable value fails to serialize. -/
theorem dumps_err_of_not_serializable {sk : Bool} {v : Value} (h : serializable v = false) :
    dumps sk v = .error () := by
  have := dumps_isOk sk v
  rw [h] at this
  cases hv : dumps sk v with
  | ok s => rw [hv] at this; simp [isOkE] at this
  | error e => rfl

/-! ## The `[-2:]` slice and the penalty blocks -/

/-- A list of length at least 2 ends in two elements, which are exactly
the `[-2:]` slice. -/
theorem exists_lastTwo {α : Type} (rs : List α) (h : 2 ≤ rs.length) :
    ∃ a b, rs.drop (rs.length - 2) = [a, b] ∧ rs.getLast? = some b := by
  have hlen : (rs.drop (rs.length - 2)).length = 2 := by
    rw [List.length_drop]; omega
  obtain ⟨a, b, hd⟩ : ∃ a b, rs.drop (rs.length - 2) = [a, b] := by
    cases hdd : rs.drop (rs.length - 2) with
    | nil => rw [hdd] at hlen; simp at hlen
    | cons x tl =>
      cases tl with
      | nil => rw [hdd] at hlen; simp at hlen
      | cons y tl2 =>
        cases tl2 with
        | nil => exact ⟨x, y, rfl⟩
        | cons z tl3 => rw [hdd] at hlen; simp at hlen
  refine ⟨a, b, hd, ?_⟩
  have hsplit : rs = rs.take (rs.length - 2) ++ [a, b] := by
    conv_lhs => rw [← List.take_append_drop (rs.length - 2) rs]
    rw [hd]
  rw [hsplit, List.getLast?_append]
  rfl

/-- Appending `[a, b]` makes `[a, b]` the `[-2:]` slice. -/
theorem drop_sub_two_append {α : Type} (pre : List α) (a b : α) :
    (pre ++ [a, b]).drop ((pre ++ [a, b]).length - 2) = [a, b] := by
  have h : (pre ++ [a, b]).length - 2 = pre.length := by
    simp
  rw [h, List.drop_left]

/-- With fewer than two responses the inconsistency block adds nothing. -/
theorem inconsistencyPenalty_short (rs : List ResponseRecord) (h : rs.length < 2) :
    inconsistencyPenalty rs = .ok 0 := by
  unfold inconsistencyPenalty
  rw [if_neg]
  omega

/-- With at least two responses the inconsistency block serializes the
last two payloads canonically and compares the strings. -/
theorem inconsistencyPenalty_spec (rs : List ResponseRecord) (a b : ResponseRecord)
    (sa sb : String) (hd : rs.drop (rs.length - 2) = [a, b])
    (ha : dumps true a.data = .ok sa) (hb : dumps true b.data = .ok sb) :
    inconsistencyPenalty rs = .ok (if sa = sb then 0 else 40) := by
  have hlen : 2 ≤ rs.length := by
    have := congrArg List.length hd
    rw [List.length_drop] at this
    simp at this
    omega
  unfold inconsistencyPenalty
  rw [if_pos (by omega), hd]
  rw [show ([a, b].headD (⟨"", .null⟩ : ResponseRecord)) = a from rfl,
    show ([a, b].getLastD (⟨"", .null⟩ : ResponseRecord)) = b from rfl]
  rw [ha, bindE_ok, hb, bindE_ok]
  by_cases h : sa = sb <;> simp [h]

/-- The inconsistency block fails exactly when one of the two serialized
payloads is non-serializable. -/
theorem inconsistencyPenalty_err (rs : List ResponseRecord) (a b : ResponseRecord)
    (hd : rs.drop (rs.length - 2) = [a, b])
    (h : serializable a.data = false ∨ serializable b.data = false) :
    inconsistencyPenalty rs = .error () := by
  have hlen : 2 ≤ rs.length := by
    have := congrArg List.length hd
    rw [List.length_drop] at this
    simp at this
    omega
  unfold inconsistencyPenalty
  rw [if_pos (by omega), hd]
  rw [show ([a, b].headD (⟨"", .null⟩ : ResponseRecord)) = a from rfl,
    show ([a, b].getLastD (⟨"", .null⟩ : ResponseRecord)) = b from rfl]
  cases h with
  | inl ha =>
      rw [dumps_err_of_not_serializable ha, bindE_err]
  | inr hb =>
      cases hsa : serializable a.data with
      | false => rw [dumps_err_of_not_serializable hsa, bindE_err]
      | true =>
          rw [dumps_ok_of_serializable hsa, bindE_ok,
            dumps_err_of_not_serializable hb, bindE_err]

/-- The structural block on a nonempty list serializes the last payload
without key sorting and clamps twice the open-delimiter count. -/
theorem structuralPenalty_spec (rs : List ResponseRecord) (r : ResponseRecord) (s : String)
    (hlast : rs.getLast? = some r) (hs : dumps false r.data = .ok s) :
    structuralPenalty rs = .ok (min 30 ((strCount s '\x7b' + strCount s '\x5b') * 2)) := by
  unfold structuralPenalty
  rw [hlast]
  simp only
  rw [hs, bindE_ok]

/-- The structural block fails exactly when the last payload is
non-serializable. -/
theorem structuralPenalty_err (rs : List ResponseRecord) (r : ResponseRecord)
    (hlast : rs.getLast? = some r) (h : serializable r.data = false) :
    structuralPenalty rs = .error () := by
  unfold structuralPenalty
  rw [hlast]
  simp only
  rw [dumps_err_of_not_serializable h, bindE_err]

/-! ## Shapes and bounds of the three blocks -/

/-- A successful inconsistency block yields 0 or 40. -/
theorem inconsistencyPenalty_ok_cases (rs : List ResponseRecord) (n : Nat)
    (h : inconsistencyPenalty rs = .ok n) : n = 0 ∨ n = 40 := by
  unfold inconsistencyPenalty at h
  by_cases hl : rs.length > 1
  · rw [if_pos hl] at h
    cases h0 : dumps true ((rs.drop (rs.length - 2)).headD ⟨"", .null⟩).data with
    | error e => rw [h0, bindE_err] at h; exact absurd h (by simp)
    | ok s0 =>
      rw [h0, bindE_ok] at h
      cases h1 : dumps true ((rs.drop (rs.length - 2)).getLastD ⟨"", .null⟩).data with
      | error e => rw [h1, bindE_err] at h; exact absurd h (by simp)
      | ok s1 =>
        rw [h1, bindE_ok] at h
        by_cases hs : s0 = s1
        · left; simp [hs] at h; omega
        · right; simp [hs] at h; omega
  · rw [if_neg hl] at h
    left
    simp at h
    omega

/-- A successful structural block yields an even value at most 30. -/
theorem structuralPenalty_ok_le (rs : List ResponseRecord) (n : Nat)
    (h : structuralPenalty rs = .ok n) : n ≤ 30 ∧ n % 2 = 0 := by
  unfold structuralPenalty at h
  cases hlast : rs.getLast? with
  | none => rw [hlast] at h; simp at h; omega
  | some r =>
    rw [hlast] at h
    simp only at h
    cases hs : dumps false r.data with
    | error e => rw [hs, bindE_err] at h; exact absurd h (by simp)
    | ok s =>
      rw [hs, bindE_ok] at h
      simp at h
      omega

/-- The error block is an even value at most 30. -/
theorem errorPenalty_le (errs : List ErrorRecord) :
    errorPenalty errs ≤ 30 ∧ errorPenalty errs % 2 = 0 := by
  unfold errorPenalty
  omega

/-! ## Characterization of `calculate_misery` -/

/-- On a nonempty response list, `calculate_misery` chains the three
blocks and clamps the sum at 100. -/
theorem calculate_misery_decomp (t : APIMiseryIndex) (h : t.responses ≠ []) :
    calculate_misery t =
      inconsistencyPenalty t.responses >>= fun inc =>
        structuralPenalty t.responses >>= fun st =>
          .ok (min 100 (inc + errorPenalty t.errors + st)) := by
  unfold calculate_misery
  rw [if_neg (by simp [h])]

/-- A successful score is an even number at most 100. -/
theorem calculate_misery_ok_le (t : APIMiseryIndex) (v : Nat)
    (h : calculate_misery t = .ok v) : v ≤ 100 ∧ v % 2 = 0 := by
  by_cases hr : t.responses = []
  · unfold calculate_misery at h
    rw [if_pos (by simp [hr])] at h
    simp at h
    omega
  · rw [calculate_misery_decomp t hr] at h
    cases h0 : inconsistencyPenalty t.responses with
    | error e => rw [h0, bindE_err] at h; exact absurd h (by simp)
    | ok inc =>
      rw [h0, bindE_ok] at h
      cases h1 : structuralPenalty t.responses with
      | error e => rw [h1, bindE_err] at h; exact absurd h (by simp)
      | ok st =>
        rw [h1, bindE_ok] at h
        simp at h
        have hinc := inconsistencyPenalty_ok_cases t.responses inc h0
        have hst := structuralPenalty_ok_le t.responses st h1
        have herr := errorPenalty_le t.errors
        omega

/-- `calculate_misery` fails exactly when a payload in the `[-2:]`
slice of responses (the only payloads it serializes) is
non-serializable. -/
theorem calculate_misery_err_iff (t : APIMiseryIndex) :
    calculate_misery t = .error () ↔
      ∃ r ∈ t.responses.drop (t.responses.length - 2), serializable r.data = false := by
  by_cases hr : t.responses = []
  · unfold calculate_misery
    rw [if_pos (by simp [hr])]
    simp [hr]
  · rw [calculate_misery_decomp t hr]
    rcases Nat.lt_or_ge t.responses.length 2 with hlen | hlen
    · have h1 : t.responses.length = 1 := by
        have := List.length_pos.mpr hr
        omega
      obtain ⟨r, hr1⟩ := List.length_eq_one.mp h1
      rw [inconsistencyPenalty_short _ (by omega), bindE_ok]
      rw [hr1] at *
      cases hs : serializable r.data with
      | true =>
          rw [structuralPenalty_spec [r] r (getOk (dumps false r.data)) rfl
            (dumps_ok_of_serializable hs), bindE_ok]
          simp [hs]
      | false =>
          rw [structuralPenalty_err [r] r rfl hs, bindE_err]
          simp [hs]
    · obtain ⟨a, b, hd, hlast⟩ := exists_lastTwo t.responses hlen
      rw [hd]
      cases hsa : serializable a.data with
      | false =>
          rw [inconsistencyPenalty_err t.responses a b hd (Or.inl hsa), bindE_err]
          simp [hsa]
      | true =>
          cases hsb : serializable b.data with
          | false =>
              rw [inconsistencyPenalty_err t.responses a b hd (Or.inr hsb), bindE_err]
              simp [hsb]
          | true =>
              rw [inconsistencyPenalty_spec t.responses a b
                (getOk (dumps true a.data)) (getOk (dumps true b.data)) hd
                (dumps_ok_of_serializable hsa) (dumps_ok_of_serializable hsb), bindE_ok]
              rw [structuralPenalty_spec t.responses b (getOk (dumps false b.data)) hlast
                (dumps_ok_of_serializable hsb), bindE_ok]
              simp [hsa, hsb]

/-- `calculate_misery` succeeds whenever every logged payload is
serializable. -/
theorem calculate_misery_total (t : APIMiseryIndex)
    (h : ∀ r ∈ t.responses, serializable r.data = true) :
    ∃ v, calculate_misery t = .ok v := by
  cases hc : calculate_misery t with
  | ok v => exact ⟨v, rfl⟩
  | error e =>
    cases e
    obtain ⟨r, hm, hser⟩ := (calculate_misery_err_iff t).mp hc
    have hmem : r ∈ t.responses := List.drop_subset _ _ hm
    rw [h r hmem] at hser
    cases hser

/-! ## Canonical serialization ignores key order -/

/-- Strict key order on rendered entries, used to show a sorted entry
list with distinct keys is unique. -/
def pairKeyLt (p q : String × String) : Prop := pairKeyLe p q ∧ p.1 ≠ q.1

instance : IsAntisymm (String × String) pairKeyLt :=
  ⟨fun p q h1 h2 => by
    have heq : p.1.data = q.1.data := charListLeb_antisymm _ _ h1.1 h2.1
    have : p.1 = q.1 := by
      cases p1 : p.1 with
      | mk d1 =>
        cases q1 : q.1 with
        | mk d2 =>
          rw [p1, q1] at heq
          simp at heq
          rw [heq]
    exact absurd this h1.2⟩

/-- When every value in an entry list is serializable, `dumpsPairs`
returns the key-tagged rendered entries in order. -/
theorem dumpsPairs_map (sk : Bool) (kvs : List (String × Value))
    (h : ∀ kv ∈ kvs, serializable kv.2 = true) :
    dumpsPairs sk kvs = .ok (kvs.map fun kv => (kv.1, getOk (dumps sk kv.2))) := by
  induction kvs with
  | nil => rfl
  | cons kv rest ih =>
    rw [dumpsPairs_cons]
    rw [dumps_ok_of_serializable (h kv (List.mem_cons_self kv rest)), bindE_ok]
    rw [ih (fun x hx => h x (List.mem_cons_of_mem kv hx)), bindE_ok]
    rfl

/-- When some value in an entry list is non-serializable, `dumpsPairs`
fails. -/
theorem dumpsPairs_err (sk : Bool) (kvs : List (String × Value)) (kv : String × Value)
    (hm : kv ∈ kvs) (h : serializable kv.2 = false) :
    dumpsPairs sk kvs = .error () := by
  induction kvs with
  | nil => cases hm
  | cons x rest ih =>
    rw [dumpsPairs_cons]
    cases hx : serializable x.2 with
    | false => rw [dumps_err_of_not_serializable hx, bindE_err]
    | true =>
      rw [dumps_ok_of_serializable hx, bindE_ok]
      rcases List.mem_cons.mp hm with heq | hmem
      · rw [heq] at h; rw [h] at hx; cases hx
      · rw [ih hmem, bindE_err]

/-- Two permuted rendered-entry lists with duplicate-free keys sort to
the same list. -/
theorem sortPairs_perm_eq (l l' : List (String × String)) (hp : l.Perm l')
    (hn : (l.map Prod.fst).Nodup) : sortPairs l = sortPairs l' := by
  have hperm : (sortPairs l).Perm (sortPairs l') :=
    (List.perm_insertionSort pairKeyLe l).trans
      (hp.trans (List.perm_insertionSort pairKeyLe l').symm)
  have hn1 : ((sortPairs l).map Prod.fst).Nodup :=
    ((List.perm_insertionSort pairKeyLe l).map Prod.fst).symm.nodup hn
  have hn2 : ((sortPairs l').map Prod.fst).Nodup :=
    (hperm.map Prod.fst).nodup hn1
  have hs1 : List.Sorted pairKeyLe (sortPairs l) := List.sorted_insertionSort pairKeyLe l
  have hs2 : List.Sorted pairKeyLe (sortPairs l') := List.sorted_insertionSort pairKeyLe l'
  have hne1 : (sortPairs l).Pairwise (fun p q : String × String => p.1 ≠ q.1) :=
    List.pairwise_map.mp hn1
  have hne2 : (sortPairs l').Pairwise (fun p q : String × String => p.1 ≠ q.1) :=
    List.pairwise_map.mp hn2
  have hst1 : List.Sorted pairKeyLt (sortPairs l) :=
    (hs1.and hne1).imp (fun h => ⟨h.1, h.2⟩)
  have hst2 : List.Sorted pairKeyLt (sortPairs l') :=
    (hs2.and hne2).imp (fun h => ⟨h.1, h.2⟩)
  exact List.eq_of_perm_of_sorted hperm hst1 hst2

/-- Canonical serialization of an object does not depend on the order
of its (duplicate-free) keys. -/
theorem dumps_obj_perm (kvs kvs' : List (String × Value)) (hp : kvs.Perm kvs')
    (hn : (kvs.map Prod.fst).Nodup) :
    dumps true (.obj kvs) = dumps true (.obj kvs') := by
  by_cases hall : ∀ kv ∈ kvs, serializable kv.2 = true
  · have hall' : ∀ kv ∈ kvs', serializable kv.2 = true :=
      fun kv hm => hall kv (hp.mem_iff.mpr hm)
    rw [dumps_obj, dumps_obj, dumpsPairs_map true kvs hall, dumpsPairs_map true kvs' hall',
      bindE_ok, bindE_ok]
    have hpg : (kvs.map fun kv => (kv.1, getOk (dumps true kv.2))).Perm
        (kvs'.map fun kv => (kv.1, getOk (dumps true kv.2))) :=
      hp.map _
    have hng : ((kvs.map fun kv => (kv.1, getOk (dumps true kv.2))).map Prod.fst).Nodup := by
      rw [List.map_map]
      exact hn
    rw [if_pos rfl, if_pos rfl, sortPairs_perm_eq _ _ hpg hng]
  · push_neg at hall
    obtain ⟨kv, hm, hser⟩ := hall
    have hser' : serializable kv.2 = false := by
      cases h : serializable kv.2 with
      | false => rfl
      | true => rw [h] at hser; cases hser rfl
    rw [dumps_obj, dumps_obj, dumpsPairs_err true kvs kv hm hser',
      dumpsPairs_err true kvs' kv (hp.mem_iff.mp hm) hser', bindE_err]

/-! ## The module's demonstration scenario -/

/-- First demo payload: `{"status": "ok", "data": {"id": 1}}`. -/
def demoResp1 : Value := .obj [("status", .str "ok"), ("data", .obj [("id", .int 1)])]

/-- Second demo payload: `{"status": "success", "result": {"user_id": 1}}`. -/
def demoResp2 : Value := .obj [("status", .str "success"), ("result", .obj [("user_id", .int 1)])]

/-- Tracker state after the three demo logging calls of the module's
entry point (timestamps are arbitrary). -/
def demoTracker : APIMiseryIndex :=
  ⟨"ExampleAPI", [⟨"t1", demoResp1⟩, ⟨"t2", demoResp2⟩],
    [⟨"t3", .str "404: Endpoint moved to /v2 (but we\x27re on v3)"⟩]⟩

/-- The demo score: 40 (differing payloads) + 10 (one error) + 4 (two
open braces in the compact form of the second payload). -/
theorem demo_score : calculate_misery demoTracker = .ok 54 := by
  simp [calculate_misery, demoTracker, inconsistencyPenalty, structuralPenalty,
    errorPenalty, demoResp1, demoResp2, dumps, dumpsPairs, dumpsList, bindE_ok,
    sortPairs, List.insertionSort, List.orderedInsert, pairKeyLe, charListLeb,
    entryStr, quoteStr, escapeChar, strCount]
  rfl

/-! ## The claims -/

/-- Claim C5: on a tracker with no logged responses, `calculate_misery`
returns exactly 0, whatever the error list holds (the empty case is a
defined zero, not an error). -/
theorem calculate_misery_empty_zero (t : APIMiseryIndex) (h : t.responses = []) :
    calculate_misery t = .ok 0 := by
  unfold calculate_misery
  rw [if_pos (by simp [h])]

/-- Witness for C5: an empty-response tracker with two errors, one of
them non-serializable, still scores 0. -/
theorem calculate_misery_empty_zero_witness :
    calculate_misery ⟨"Unknown API", [], [⟨"e1", .str "boom"⟩, ⟨"e2", .nonSerializable⟩]⟩ =
      .ok 0 :=
  calculate_misery_empty_zero _ rfl

/-- Claim C3: the error block of `calculate_misery` is exactly
`min(30, 10 * errorCount)` (0 errors give 0, then 10, 20, and 30 for
every count from three up), and on any tracker with responses the score
is the clamped sum of the other two blocks with exactly this term. -/
theorem error_term_min_formula :
    (∀ errs : List ErrorRecord, errorPenalty errs = min 30 (10 * errs.length)) ∧
    (∀ t : APIMiseryIndex, t.responses ≠ [] →
      calculate_misery t =
        inconsistencyPenalty t.responses >>= fun inc =>
          structuralPenalty t.responses >>= fun st =>
            .ok (min 100 (inc + min 30 (10 * t.errors.length) + st))) ∧
    (∀ errs : List ErrorRecord, errs.length = 0 → errorPenalty errs = 0) ∧
    (∀ errs : List ErrorRecord, errs.length = 1 → errorPenalty errs = 10) ∧
    (∀ errs : List ErrorRecord, errs.length = 2 → errorPenalty errs = 20) ∧
    (∀ errs : List ErrorRecord, errs.length = 3 → errorPenalty errs = 30) ∧
    (∀ errs : List ErrorRecord, 3 ≤ errs.length → errorPenalty errs = 30) := by
  refine ⟨fun errs => by unfold errorPenalty; omega,
    fun t h => ?_, fun errs h => by unfold errorPenalty; omega,
    fun errs h => by unfold errorPenalty; omega,
    fun errs h => by unfold errorPenalty; omega,
    fun errs h => by unfold errorPenalty; omega,
    fun errs h => by unfold errorPenalty; omega⟩
  rw [calculate_misery_decomp t h]
  simp only [errorPenalty, Nat.mul_comm]

/-- Witness for C3: concrete error lists of length 0, 1, 2, 3 and 10,
and the demo tracker, instantiate every part. -/
theorem error_term_min_formula_witness :
    errorPenalty [] = 0 ∧
    errorPenalty [⟨"a", .str "x"⟩] = 10 ∧
    errorPenalty [⟨"a", .str "x"⟩, ⟨"b", .str "y"⟩] = 20 ∧
    errorPenalty [⟨"a", .str "x"⟩, ⟨"b", .str "y"⟩, ⟨"c", .str "z"⟩] = 30 ∧
    errorPenalty (List.replicate 10 ⟨"a", .str "x"⟩) = 30 ∧
    calculate_misery demoTracker =
      inconsistencyPenalty demoTracker.responses >>= fun inc =>
        structuralPenalty demoTracker.responses >>= fun st =>
          .ok (min 100 (inc + min 30 (10 * demoTracker.errors.length) + st)) := by
  refine ⟨error_term_min_formula.2.2.1 _ rfl, error_term_min_formula.2.2.2.1 _ rfl,
    error_term_min_formula.2.2.2.2.1 _ rfl, error_term_min_formula.2.2.2.2.2.1 _ rfl,
    error_term_min_formula.2.2.2.2.2.2 _ (by simp),
    error_term_min_formula.2.1 demoTracker (by simp [demoTracker])⟩

/-- Claim C4: the structural block serializes only the most recent response
payload to its compact form, counts its open-brace and open-bracket
characters, doubles that and clamps at 30; responses before the last
cannot change it. -/
theorem structural_term_last_response :
    (∀ (rs : List ResponseRecord) (r : ResponseRecord) (s : String),
      rs.getLast? = some r → dumps false r.data = .ok s →
      structuralPenalty rs = .ok (min 30 (2 * (strCount s '\x7b' + strCount s '\x5b')))) ∧
    (∀ rs rs' : List ResponseRecord, rs.getLast? = rs'.getLast? →
      structuralPenalty rs = structuralPenalty rs') := by
  constructor
  · intro rs r s hlast hs
    rw [structuralPenalty_spec rs r s hlast hs, Nat.mul_comm]
  · intro rs rs' h
    unfold structuralPenalty
    rw [h]

/-- Witness for C4: the nested demo payload yields 2 opening braces,
hence 4; prepending history does not change the block. -/
theorem structural_term_last_response_witness :
    structuralPenalty [⟨"t2", demoResp2⟩] =
      .ok (min 30 (2 * (strCount "\x7b\"status\": \"success\", \"result\": \x7b\"user_id\": 1\x7d\x7d" '\x7b'
        + strCount "\x7b\"status\": \"success\", \"result\": \x7b\"user_id\": 1\x7d\x7d" '\x5b'))) ∧
    structuralPenalty [⟨"t1", demoResp1⟩, ⟨"t2", demoResp2⟩] =
      structuralPenalty [⟨"t2", demoResp2⟩] := by
  constructor
  · exact structural_term_last_response.1 _ ⟨"t2", demoResp2⟩ _ rfl
      (by simp [demoResp2, dumps, dumpsPairs, quoteStr, escapeChar, entryStr]; rfl)
  · exact structural_term_last_response.2 _ _ (by rfl)

/-- Claim C9: both logging operations are pure appends: one record is added
at the tail, the other sequence, the label, and every existing record
are unchanged, and nothing is removed, reordered or deduplicated.
(`calculate_misery` and `get_diagnosis` are embedded as read-only
functions of the state, mirroring that the Python methods never write
`self`.) -/
theorem log_append_only_frame (t : APIMiseryIndex) (now : String) (d m : Value) :
    (log_response t now d).responses = t.responses ++ [⟨now, d⟩] ∧
    (log_response t now d).errors = t.errors ∧
    (log_response t now d).api_name = t.api_name ∧
    (log_response t now d).responses.length = t.responses.length + 1 ∧
    (log_error t now m).errors = t.errors ++ [⟨now, m⟩] ∧
    (log_error t now m).responses = t.responses ∧
    (log_error t now m).api_name = t.api_name ∧
    (log_error t now m).errors.length = t.errors.length + 1 :=
  ⟨rfl, rfl, rfl, by simp [log_response], rfl, rfl, rfl, by simp [log_error]⟩

/-- Claim C1: on any tracker whose logged payloads are all serializable,
`calculate_misery` returns a value between 0 and 100. -/
theorem calculate_misery_in_range (t : APIMiseryIndex)
    (h : ∀ r ∈ t.responses, serializable r.data = true) :
    ∃ v, calculate_misery t = .ok v ∧ 0 ≤ v ∧ v ≤ 100 := by
  obtain ⟨v, hv⟩ := calculate_misery_total t h
  exact ⟨v, hv, Nat.zero_le v, (calculate_misery_ok_le t v hv).1⟩

/-- Witness for C1: the demo tracker's payloads are serializable and
its score lies in range. -/
theorem calculate_misery_in_range_witness :
    ∃ v, calculate_misery demoTracker = .ok v ∧ 0 ≤ v ∧ v ≤ 100 := by
  apply calculate_misery_in_range demoTracker
  intro r hm
  simp only [demoTracker, List.mem_cons, List.not_mem_nil, or_false] at hm
  rcases hm with h | h <;> rw [h] <;>
    simp [demoResp1, demoResp2, serializable, serializableP, serializableL]

/-- Claim C2: with fewer than two responses the inconsistency block is 0;
with at least two, it is 0 when the canonical (sorted-keys)
serializations of the last two payloads coincide and exactly 40 when
they differ; and the canonical serialization of a map does not depend
on the order of its (distinct) keys. -/
theorem inconsistency_term_canonical :
    (∀ rs : List ResponseRecord, rs.length < 2 → inconsistencyPenalty rs = .ok 0) ∧
    (∀ (pre : List ResponseRecord) (a b : ResponseRecord) (sa sb : String),
      dumps true a.data = .ok sa → dumps true b.data = .ok sb →
      inconsistencyPenalty (pre ++ [a, b]) = .ok (if sa = sb then 0 else 40)) ∧
    (∀ kvs kvs' : List (String × Value), kvs.Perm kvs' → (kvs.map Prod.fst).Nodup →
      dumps true (.obj kvs) = dumps true (.obj kvs')) :=
  ⟨inconsistencyPenalty_short,
    fun pre a b sa sb ha hb =>
      inconsistencyPenalty_spec (pre ++ [a, b]) a b sa sb (drop_sub_two_append pre a b) ha hb,
    dumps_obj_perm⟩

/-- Witness for C2: a single response gives 0; equal payloads give 0
and differing payloads give 40; swapping the keys of a two-key map
leaves its canonical serialization unchanged. -/
theorem inconsistency_term_canonical_witness :
    inconsistencyPenalty [⟨"t1", .null⟩] = .ok 0 ∧
    inconsistencyPenalty [⟨"t1", .null⟩, ⟨"t2", .null⟩] = .ok 0 ∧
    inconsistencyPenalty [⟨"t1", .null⟩, ⟨"t2", .bool true⟩] = .ok 40 ∧
    dumps true (.obj [("b", .int 1), ("a", .str "x")]) =
      dumps true (.obj [("a", .str "x"), ("b", .int 1)]) := by
  refine ⟨inconsistency_term_canonical.1 _ (by simp), ?_, ?_, ?_⟩
  · have h := inconsistency_term_canonical.2.1 [] ⟨"t1", .null⟩ ⟨"t2", .null⟩ "null" "null"
      (by simp [dumps]) (by simp [dumps])
    simpa using h
  · have h := inconsistency_term_canonical.2.1 [] ⟨"t1", .null⟩ ⟨"t2", .bool true⟩ "null" "true"
      (by simp [dumps]) (by simp [dumps])
    simpa using h
  · exact inconsistency_term_canonical.2.2 _ _ (List.Perm.swap _ _ _) (by simp)

/-- Claim C10: any returned score is an even integer at most 100, and with at
least one response it is the plain sum of the three blocks: the final
clamp at 100 never lowers the total because the blocks are bounded by
40, 30 and 30. -/
theorem calculate_misery_even_unclamped (t : APIMiseryIndex) (v : Nat)
    (h : calculate_misery t = .ok v) :
    (v % 2 = 0 ∧ v ≤ 100) ∧
    (t.responses ≠ [] →
      ∃ inc st, inconsistencyPenalty t.responses = .ok inc ∧
        structuralPenalty t.responses = .ok st ∧
        inc + errorPenalty t.errors + st ≤ 100 ∧
        v = inc + errorPenalty t.errors + st) := by
  have hle := calculate_misery_ok_le t v h
  refine ⟨⟨hle.2, hle.1⟩, fun hr => ?_⟩
  rw [calculate_misery_decomp t hr] at h
  cases h0 : inconsistencyPenalty t.responses with
  | error e => rw [h0, bindE_err] at h; exact absurd h (by simp)
  | ok inc =>
    rw [h0, bindE_ok] at h
    cases h1 : structuralPenalty t.responses with
    | error e => rw [h1, bindE_err] at h; exact absurd h (by simp)
    | ok st =>
      rw [h1, bindE_ok] at h
      simp at h
      have hinc := inconsistencyPenalty_ok_cases t.responses inc h0
      have hst := structuralPenalty_ok_le t.responses st h1
      have herr := errorPenalty_le t.errors
      exact ⟨inc, st, rfl, rfl, by omega, by omega⟩

/-- Witness for C10: the demo score 54 is even, at most 100, and equals
the unclamped block sum. -/
theorem calculate_misery_even_unclamped_witness :
    (54 % 2 = 0 ∧ 54 ≤ 100) ∧
    (demoTracker.responses ≠ [] →
      ∃ inc st, inconsistencyPenalty demoTracker.responses = .ok inc ∧
        structuralPenalty demoTracker.responses = .ok st ∧
        inc + errorPenalty demoTracker.errors + st ≤ 100 ∧
        54 = inc + errorPenalty demoTracker.errors + st) :=
  calculate_misery_even_unclamped demoTracker 54 demo_score

/-- Claim C6: `get_diagnosis` selects the template by the score with strict
upper bounds 20, 50, 80, interpolating the label; in particular a score
of exactly 20 lands in the "Mild annoyance" tier and exactly 80 in the
"CRITICAL" tier. -/
theorem get_diagnosis_tiers (t : APIMiseryIndex) (v : Nat)
    (h : calculate_misery t = .ok v) :
    get_diagnosis t = .ok (t.api_name ++
      (if v < 20 then msgStable else if v < 50 then msgMild
        else if v < 80 then msgSuffering else msgCritical)) ∧
    (v = 20 → get_diagnosis t = .ok (t.api_name ++ msgMild)) ∧
    (v = 80 → get_diagnosis t = .ok (t.api_name ++ msgCritical)) := by
  have hg : get_diagnosis t = .ok (t.api_name ++
      (if v < 20 then msgStable else if v < 50 then msgMild
        else if v < 80 then msgSuffering else msgCritical)) := by
    unfold get_diagnosis
    rw [h, bindE_ok]
    split_ifs <;> rfl
  refine ⟨hg, fun h20 => ?_, fun h80 => ?_⟩
  · rw [hg, h20]; norm_num
  · rw [hg, h80]; norm_num

/-- Witness for C6: the demo tracker scores 54 and is diagnosed with
the "Significant suffering" template. -/
theorem get_diagnosis_tiers_witness :
    get_diagnosis demoTracker = .ok ("ExampleAPI" ++ msgSuffering) := by
  have h := (get_diagnosis_tiers demoTracker 54 demo_score).1
  norm_num at h
  exact h

/-- Claim C7: logging always succeeds, whatever the value — each call only
appends a record — and `calculate_misery` raises a serialization error
precisely when a payload it serializes (the `[-2:]` slice of the
responses) is non-serializable.  Error messages are never serialized by
`calculate_misery`, so a non-serializable logged message never raises. -/
theorem logging_total_error_at_canonicalization :
    (∀ (t : APIMiseryIndex) (now : String) (d : Value),
      (log_response t now d).responses = t.responses ++ [⟨now, d⟩]) ∧
    (∀ (t : APIMiseryIndex) (now : String) (m : Value),
      (log_error t now m).errors = t.errors ++ [⟨now, m⟩]) ∧
    (∀ t : APIMiseryIndex,
      calculate_misery t = .error () ↔
        ∃ r ∈ t.responses.drop (t.responses.length - 2), serializable r.data = false) :=
  ⟨fun _ _ _ => rfl, fun _ _ _ => rfl, calculate_misery_err_iff⟩

/-- Witness for C7: logging a non-serializable payload and a
non-serializable error message succeeds; the serialization error then
surfaces in `calculate_misery` for the payload, while a tracker whose
only offending value sits in an error message computes fine. -/
theorem logging_total_error_at_canonicalization_witness :
    (log_response ⟨"A", [], []⟩ "t0" .nonSerializable).responses = [⟨"t0", .nonSerializable⟩] ∧
    (log_error ⟨"A", [], []⟩ "t0" .nonSerializable).errors = [⟨"t0", .nonSerializable⟩] ∧
    calculate_misery ⟨"A", [⟨"t0", .nonSerializable⟩], []⟩ = .error () ∧
    ¬ calculate_misery ⟨"A", [⟨"t0", .null⟩], [⟨"t1", .nonSerializable⟩]⟩ = .error () := by
  refine ⟨by simpa using logging_total_error_at_canonicalization.1 ⟨"A", [], []⟩ "t0" .nonSerializable,
    by simpa using logging_total_error_at_canonicalization.2.1 ⟨"A", [], []⟩ "t0" .nonSerializable,
    ?_, ?_⟩
  · exact (logging_total_error_at_canonicalization.2.2 _).mpr
      ⟨⟨"t0", .nonSerializable⟩, by simp, by simp [serializable]⟩
  · intro hc
    obtain ⟨r, hm, hser⟩ := (logging_total_error_at_canonicalization.2.2 _).mp hc
    simp at hm
    rw [hm] at hser
    simp [serializable] at hser

/-- The structural block depends only on the payload of the last
response. -/
theorem structuralPenalty_eq_of_data (rs rs' : List ResponseRecord) (r r' : ResponseRecord)
    (h1 : rs.getLast? = some r) (h2 : rs'.getLast? = some r') (hd : r.data = r'.data) :
    structuralPenalty rs = structuralPenalty rs' := by
  cases hs : serializable r.data with
  | true =>
    rw [structuralPenalty_spec rs r (getOk (dumps false r.data)) h1
        (dumps_ok_of_serializable hs),
      structuralPenalty_spec rs' r' (getOk (dumps false r.data)) h2
        (by rw [← hd]; exact dumps_ok_of_serializable hs)]
  | false =>
    rw [structuralPenalty_err rs r h1 hs,
      structuralPenalty_err rs' r' h2 (by rw [← hd]; exact hs)]

/-- Claim C8: the score depends only on the payloads of the `[-2:]` slice of
the responses and the number of logged errors: any two trackers
agreeing on those get equal results, whatever their labels, timestamps,
earlier responses or error-message contents. -/
theorem calculate_misery_last_two_noninterference (t1 t2 : APIMiseryIndex)
    (hresp : (t1.responses.drop (t1.responses.length - 2)).map ResponseRecord.data
      = (t2.responses.drop (t2.responses.length - 2)).map ResponseRecord.data)
    (herr : t1.errors.length = t2.errors.length) :
    calculate_misery t1 = calculate_misery t2 := by
  have hep : errorPenalty t1.errors = errorPenalty t2.errors := by
    unfold errorPenalty
    rw [herr]
  have hlen : t1.responses.length - (t1.responses.length - 2)
      = t2.responses.length - (t2.responses.length - 2) := by
    have h := congrArg List.length hresp
    simpa [List.length_map, List.length_drop] using h
  rcases Nat.lt_or_ge t1.responses.length 2 with h1 | h1
  · by_cases hz : t1.responses.length = 0
    · have hz2 : t2.responses.length = 0 := by omega
      have hrs1 := List.length_eq_zero.mp hz
      have hrs2 := List.length_eq_zero.mp hz2
      unfold calculate_misery
      rw [if_pos (by simp [hrs1]), if_pos (by simp [hrs2])]
    · have h1len : t1.responses.length = 1 := by omega
      have h2len : t2.responses.length = 1 := by omega
      obtain ⟨r1, hrs1⟩ := List.length_eq_one.mp h1len
      obtain ⟨r2, hrs2⟩ := List.length_eq_one.mp h2len
      rw [hrs1, hrs2] at hresp
      simp at hresp
      rw [calculate_misery_decomp t1 (by rw [hrs1]; simp),
        calculate_misery_decomp t2 (by rw [hrs2]; simp)]
      have hinc : inconsistencyPenalty t1.responses = inconsistencyPenalty t2.responses := by
        rw [hrs1, hrs2, inconsistencyPenalty_short [r1] (by simp),
          inconsistencyPenalty_short [r2] (by simp)]
      have hst : structuralPenalty t1.responses = structuralPenalty t2.responses :=
        structuralPenalty_eq_of_data t1.responses t2.responses r1 r2
          (by rw [hrs1]; rfl) (by rw [hrs2]; rfl) hresp
      rw [hinc, hst]
      simp only [hep]
  · have h2 : 2 ≤ t2.responses.length := by omega
    obtain ⟨a1, b1, hd1, hlast1⟩ := exists_lastTwo t1.responses h1
    obtain ⟨a2, b2, hd2, hlast2⟩ := exists_lastTwo t2.responses h2
    rw [hd1, hd2] at hresp
    simp at hresp
    obtain ⟨ha, hb⟩ := hresp
    rw [calculate_misery_decomp t1 (by intro hnil; rw [hnil] at h1; simp at h1),
      calculate_misery_decomp t2 (by intro hnil; rw [hnil] at h2; simp at h2)]
    have hinc : inconsistencyPenalty t1.responses = inconsistencyPenalty t2.responses := by
      cases hsa : serializable a1.data with
      | false =>
        rw [inconsistencyPenalty_err _ a1 b1 hd1 (Or.inl hsa),
          inconsistencyPenalty_err _ a2 b2 hd2 (Or.inl (by rw [← ha]; exact hsa))]
      | true =>
        cases hsb : serializable b1.data with
        | false =>
          rw [inconsistencyPenalty_err _ a1 b1 hd1 (Or.inr hsb),
            inconsistencyPenalty_err _ a2 b2 hd2 (Or.inr (by rw [← hb]; exact hsb))]
        | true =>
          rw [inconsistencyPenalty_spec _ a1 b1
              (getOk (dumps true a1.data)) (getOk (dumps true b1.data)) hd1
              (dumps_ok_of_serializable hsa) (dumps_ok_of_serializable hsb),
            inconsistencyPenalty_spec _ a2 b2
              (getOk (dumps true a1.data)) (getOk (dumps true b1.data)) hd2
              (by rw [← ha]; exact dumps_ok_of_serializable hsa)
              (by rw [← hb]; exact dumps_ok_of_serializable hsb)]
    have hst : structuralPenalty t1.responses = structuralPenalty t2.responses :=
      structuralPenalty_eq_of_data t1.responses t2.responses b1 b2 hlast1 hlast2 hb
    rw [hinc, hst]
    simp only [hep]

/-- Witness for C8: two trackers with different labels, timestamps,
error messages and earlier history, but the same last-two payloads and
error count, score identically. -/
theorem calculate_misery_last_two_noninterference_witness :
    calculate_misery ⟨"A", [⟨"x", .int 7⟩, ⟨"t", .null⟩, ⟨"u", .bool true⟩],
        [⟨"e1", .str "first"⟩]⟩ =
      calculate_misery ⟨"B", [⟨"p", .null⟩, ⟨"q", .bool true⟩], [⟨"e2", .null⟩]⟩ :=
  calculate_misery_last_two_noninterference _ _ rfl rfl
